import Mathlib

/-!
Verification development for `raw2fits.py`, a converter from headerless
16-bit raw pixel dumps to FITS images.  The Python source is shallowly
embedded below: byte buffers are `List Nat` with every element `< 256`,
strings are `List Char`, filesystem reads are explicit inputs, and every
fallible step returns `Except RawError`.
-/

set_option autoImplicit false

/-- Strings of the embedded program are lists of characters. -/
abbrev Str := List Char

/-- Turn a Lean string literal into the `List Char` representation. -/
def str (s : String) : Str := s.data

/-- The single-quote character (used inside Python error messages). -/
def squote : Char := Char.ofNat 39

/-- Values of `--byteorder` (argparse offers `little` and `big`). -/
inductive ByteOrder where
  | little
  | big
deriving DecidableEq, Repr

/-- One unsigned 16-bit sample assembled from its two source bytes,
as `np.dtype("<u2")` (low byte first) or `np.dtype(">u2")` (high byte
first) interprets a 2-byte group. -/
def sampleOfBytes (byteorder : ByteOrder) (b0 b1 : Nat) : Nat :=
  match byteorder with
  | .little => b0 + 256 * b1
  | .big => 256 * b0 + b1

/-- All complete 2-byte groups of a byte buffer interpreted as u16
samples; a trailing incomplete group yields no sample, as in
`np.fromfile`. -/
def samplesOfBytes (byteorder : ByteOrder) : List Nat → List Nat
  | b0 :: b1 :: rest => sampleOfBytes byteorder b0 b1 :: samplesOfBytes byteorder rest
  | _ => []

/-- Embedding of `np.fromfile(file_path, dtype=dtype, count=num_pixels)`: reads at most
`count` u16 items from the byte content of the file. -/
def np_fromfile_u16 (byteorder : ByteOrder) (content : List Nat) (count : Nat) : List Nat :=
  (samplesOfBytes byteorder content).take count

/-- Embedding of `image_1d.reshape((height, width))` for an exactly-sized row-major
1-D array: `height` rows, row `j` holding elements `[j*width, (j+1)*width)`. -/
def np_reshape (width : Nat) : Nat → List Nat → List (List Nat)
  | 0, _ => []
  | height + 1, xs => xs.take width :: np_reshape width height (xs.drop width)

/-- The error taxonomy of the script: `FileNotFoundError` raised by
`validate_file_size`, the size-mismatch `ValueError`, the truncated-read
`ValueError` of `load_raw_image`, and the `RuntimeError` of `write_fits`. -/
inductive RawError where
  | fileNotFound (path : Str)
  | sizeMismatch (expected actual width height : Nat)
  | truncatedRead (got expected : Nat)
  | writeError (outputPath : Str) (msg : Str)
deriving DecidableEq, Repr

/-- The message text each raised exception carries (the `{err}` suffix of
`FileNotFoundError` depends on the OS and is omitted). -/
def errorMessage : RawError → Str
  | .fileNotFound path =>
      str "Cannot access " ++ [squote] ++ path ++ [squote]
  | .sizeMismatch expected actual width height =>
      str "File size mismatch: expected " ++ Nat.toDigits 10 expected ++
        str " bytes for " ++ Nat.toDigits 10 width ++ str "x" ++
        Nat.toDigits 10 height ++ str "x16b, but got " ++
        Nat.toDigits 10 actual ++ str " bytes."
  | .truncatedRead got expected =>
      str "Read " ++ Nat.toDigits 10 got ++ str " pixels, expected " ++
        Nat.toDigits 10 expected ++
        str ". The file may be truncated or parameters are incorrect."
  | .writeError outputPath msg =>
      str "Failed to write FITS file " ++ [squote] ++ outputPath ++ [squote] ++
        str ": " ++ msg

/-- Embedding of `validate_file_size(file_path, width, height)`: `size` is the result
of `os.path.getsize` (`none` when the `OSError` branch fires). -/
def validate_file_size (file_path : Str) (size : Option Nat) (width height : Nat) :
    Except RawError Unit :=
  let expected_bytes := width * height * 2
  match size with
  | none => Except.error (RawError.fileNotFound file_path)
  | some actual_bytes =>
      if actual_bytes ≠ expected_bytes then
        Except.error (RawError.sizeMismatch expected_bytes actual_bytes width height)
      else
        Except.ok ()

/-- Embedding of `load_raw_image(file_path, width, height, byteorder)`, reading from
the byte `content` of the file: decode u16 samples, check the exact pixel
count, reshape to `(height, width)`. -/
def load_raw_image (content : List Nat) (width height : Nat) (byteorder : ByteOrder) :
    Except RawError (List (List Nat)) :=
  let num_pixels := width * height
  let image_1d := np_fromfile_u16 byteorder content num_pixels
  if image_1d.length ≠ num_pixels then
    Except.error (RawError.truncatedRead image_1d.length num_pixels)
  else
    Except.ok (np_reshape width height image_1d)

/-- The two bytes of a u16 sample in the given byte order (the inverse
reading used to state the round-trip law). -/
def bytesOfSample (byteorder : ByteOrder) (v : Nat) : List Nat :=
  match byteorder with
  | .little => [v % 256, v / 256]
  | .big => [v / 256, v % 256]

/-- Flatten a pixel grid back to a byte buffer in the given byte order:
rows in order, each sample contributing its 2 bytes. -/
def flattenImage (byteorder : ByteOrder) (image : List (List Nat)) : List Nat :=
  image.flatten.flatMap (bytesOfSample byteorder)

/-- Index of the last occurrence of a character (Python `str.rfind`,
returning `none` instead of `-1` when absent). -/
def rfindIdx (c : Char) : Str → Option Nat
  | [] => none
  | x :: xs =>
    match rfindIdx c xs with
    | some i => some (i + 1)
    | none => if x = c then some 0 else none

/-- Embedding of `os.path.splitext` (posix): split off the last dot-extension of the
final path component, except that a component consisting of leading dots
only (a dotfile such as `.raw`) has no extension. -/
def os_path_splitext (p : Str) : Str × Str :=
  let sepIndex : Int := match rfindIdx '/' p with | some i => (i : Int) | none => -1
  let dotIndex : Int := match rfindIdx '.' p with | some i => (i : Int) | none => -1
  if sepIndex < dotIndex then
    let d := dotIndex.toNat
    let filenameIndex := (sepIndex + 1).toNat
    if ((p.drop filenameIndex).take (d - filenameIndex)).all (fun c => c = '.') then
      (p, [])
    else
      (p.take d, p.drop d)
  else
    (p, [])

/-- Embedding of `derive_output_path(input_path)`: the `splitext` base plus `.fits`. -/
def derive_output_path (input_path : Str) : Str :=
  (os_path_splitext input_path).1 ++ str ".fits"

/-- The ASCII case mapping applied by `str.lower()` (all filenames the
claims mention are ASCII). -/
def py_lower_char (c : Char) : Char :=
  if 'A' ≤ c ∧ c ≤ 'Z' then Char.ofNat (c.toNat + 32) else c

/-- Embedding of Python `str.endswith(suffix)`. -/
def strEndsWith (s suffix : Str) : Bool :=
  s.reverse.take suffix.length == suffix.reverse

/-- The candidate filter of the directory walk:
`filename.lower().endswith('.raw')`. -/
def isRawFilename (filename : Str) : Bool :=
  strEndsWith (filename.map py_lower_char) (str ".raw")

/-- Embedding of `os.path.join(a, b)` (posix, two components). -/
def os_path_join (a b : Str) : Str :=
  if b.head? = some '/' then b
  else if a = [] ∨ a.getLast? = some '/' then a ++ b
  else a ++ '/' :: b

/-- One file as the filesystem presents it to the script: the directory
and name `os.walk` reports, the `os.path.getsize` result (`none` when the
path is inaccessible), the byte content `np.fromfile` sees, and whether
the astropy write of the derived FITS file raises (`some msg`). -/
structure RawFile where
  dirpath : Str
  filename : Str
  size : Option Nat
  content : List Nat
  writeErr : Option Str
deriving DecidableEq, Repr

/-- Input path of a walked file: `os.path.join(dirpath, filename)`. -/
def input_path_of (f : RawFile) : Str := os_path_join f.dirpath f.filename

/-- Embedding of `write_fits(image, output_path, ...)`: delegates to astropy; raises
`RuntimeError` exactly when the underlying write fails. -/
def write_fits (image : List (List Nat)) (output_path : Str) (writeErr : Option Str) :
    Except RawError Unit :=
  match image, writeErr with
  | _, some err => Except.error (RawError.writeError output_path err)
  | _, none => Except.ok ()

/-- The per-file try-block shared by directory mode and single-file mode:
`validate_file_size`, then `load_raw_image`, then `write_fits`. -/
def process_file (f : RawFile) (output_path : Str) (width height : Nat)
    (byteorder : ByteOrder) : Except RawError Unit := do
  validate_file_size (input_path_of f) f.size width height
  let image ← load_raw_image f.content width height byteorder
  write_fits image output_path f.writeErr

/-- The `{'written': ..., 'failed': ...}` dictionary the batch returns. -/
structure BatchResult where
  written : List Str
  failed : List Str
deriving DecidableEq, Repr

/-- One iteration of the walk loop: skip non-`.raw` names, otherwise
attempt the file and append to `written` or `failed`. -/
def convertStep (width height : Nat) (byteorder : ByteOrder) (acc : BatchResult)
    (f : RawFile) : BatchResult :=
  if isRawFilename f.filename then
    let input_path := input_path_of f
    let output_path := derive_output_path input_path
    match process_file f output_path width height byteorder with
    | .ok _ => { acc with written := acc.written ++ [output_path] }
    | .error err =>
        { acc with failed := acc.failed ++ [input_path ++ str ": " ++ errorMessage err] }
  else acc

/-- Embedding of `convert_raw_directory_to_fits(root_dir, width, height, byteorder)`:
`files` lists every file of the tree in `os.walk` discovery order. -/
def convert_raw_directory_to_fits (files : List RawFile) (width height : Nat)
    (byteorder : ByteOrder) : BatchResult :=
  files.foldl (convertStep width height byteorder) ⟨[], []⟩

/-- The parsed command line (argparse result): `width`/`height` are
arbitrary Python ints, `output` is `None` or a string. -/
structure Args where
  input : Str
  width : Int
  height : Int
  output : Option Str
  byteorder : ByteOrder
deriving DecidableEq, Repr

/-- What the filesystem holds at the input path: a directory (with its
walked files) or a single file. -/
inductive FsState where
  | dir (files : List RawFile)
  | file (f : RawFile)
deriving DecidableEq, Repr

namespace raw2fits

/-- Embedding of `main(argv)` after argument parsing: geometry check first (exit 2),
then directory mode (exit 0 iff no failures) or single-file mode
(exit 0 on success, 1 on any error). -/
def main (args : Args) (fs : FsState) : Nat :=
  if args.width ≤ 0 ∨ args.height ≤ 0 then 2
  else
    match fs with
    | .dir files =>
        let result :=
          convert_raw_directory_to_fits files args.width.toNat args.height.toNat args.byteorder
        if result.failed.length = 0 then 0 else 1
    | .file f =>
        let output_path :=
          match args.output with
          | some o => if o = [] then derive_output_path (input_path_of f) else o
          | none => derive_output_path (input_path_of f)
        match process_file f output_path args.width.toNat args.height.toNat args.byteorder with
        | .ok _ => 0
        | .error _ => 1

end raw2fits

/-! ### Proof-side definitions used to characterise the batch driver -/

/-- Concatenation of two batch results, list by list. -/
def batchAppend (a b : BatchResult) : BatchResult :=
  ⟨a.written ++ b.written, a.failed ++ b.failed⟩

/-- The contribution of one candidate file to the batch result: a
singleton `written` entry on success, a singleton `failed` entry
otherwise. -/
def fileOutcome (width height : Nat) (byteorder : ByteOrder) (f : RawFile) : BatchResult :=
  let input_path := input_path_of f
  let output_path := derive_output_path input_path
  match process_file f output_path width height byteorder with
  | .ok _ => ⟨[output_path], []⟩
  | .error err => ⟨[], [input_path ++ str ": " ++ errorMessage err]⟩

/-- Batch result of attempting every file of a list (no name filter). -/
def processCandidates (width height : Nat) (byteorder : ByteOrder) : List RawFile → BatchResult
  | [] => ⟨[], []⟩
  | f :: rest =>
      batchAppend (fileOutcome width height byteorder f)
        (processCandidates width height byteorder rest)

/-- Whether attempting a walked file succeeds (derived output path). -/
def fileSucceeds (width height : Nat) (byteorder : ByteOrder) (f : RawFile) : Bool :=
  (process_file f (derive_output_path (input_path_of f)) width height byteorder).isOk

/-- The `failed` entry a walked file produces when its attempt fails. -/
def failEntryOf (width height : Nat) (byteorder : ByteOrder) (f : RawFile) : Str :=
  match process_file f (derive_output_path (input_path_of f)) width height byteorder with
  | .ok _ => []
  | .error err => input_path_of f ++ str ": " ++ errorMessage err

/-! ### Helper lemmas about the decoder -/

theorem samplesOfBytes_length (byteorder : ByteOrder) :
    ∀ l : List Nat, (samplesOfBytes byteorder l).length = l.length / 2
  | [] => rfl
  | [_] => by simp [samplesOfBytes]
  | _ :: _ :: rest => by
    simp only [samplesOfBytes, List.length_cons,
      samplesOfBytes_length byteorder rest]
    omega

theorem samplesOfBytes_flatMap (byteorder : ByteOrder) :
    ∀ l : List Nat, l.length % 2 = 0 → (∀ b ∈ l, b < 256) →
      (samplesOfBytes byteorder l).flatMap (bytesOfSample byteorder) = l
  | [], _, _ => rfl
  | [_], hlen, _ => by simp at hlen
  | b0 :: b1 :: rest, hlen, hb => by
    have hrest := samplesOfBytes_flatMap byteorder rest
      (by simp only [List.length_cons] at hlen; omega)
      (fun b hx => hb b (by simp [hx]))
    have h0 : b0 < 256 := hb b0 (by simp)
    have h1 : b1 < 256 := hb b1 (by simp)
    cases byteorder <;>
      simp [samplesOfBytes, sampleOfBytes, bytesOfSample, hrest] <;>
      omega

theorem np_reshape_flatten (width : Nat) :
    ∀ (height : Nat) (xs : List Nat), xs.length = width * height →
      (np_reshape width height xs).flatten = xs
  | 0, xs, hlen => by
    have : xs = [] := List.eq_nil_of_length_eq_zero (by simpa using hlen)
    simp [np_reshape, this]
  | height + 1, xs, hlen => by
    have hrec := np_reshape_flatten width height (xs.drop width)
      (by simp only [List.length_drop, hlen, Nat.mul_succ]; omega)
    simp only [np_reshape, List.flatten_cons, hrec]
    exact List.take_append_drop width xs

theorem np_reshape_getD (width : Nat) :
    ∀ (height : Nat) (xs : List Nat) (j : Nat), j < height →
      (np_reshape width height xs).getD j [] = (xs.drop (j * width)).take width
  | 0, _, j, hj => absurd hj (Nat.not_lt_zero j)
  | _ + 1, xs, 0, _ => by simp [np_reshape]
  | height + 1, xs, j + 1, hj => by
    have hrec := np_reshape_getD width height (xs.drop width) j
      (Nat.lt_of_succ_lt_succ hj)
    simp only [np_reshape, List.getD_cons_succ, hrec, List.drop_drop]
    have : width + j * width = (j + 1) * width := by ring
    rw [this]

/-! ### C1, C6, C7: decoder claims -/

/-- C1: for every positive geometry and every byte buffer of exactly
`width*height*2` bytes, `load_raw_image` succeeds and flattening the
resulting grid back to bytes in the same byte order reproduces the
original buffer exactly. -/
theorem c1_decode_flatten_roundtrip (width height : Nat) (byteorder : ByteOrder)
    (buf : List Nat) (hw : 0 < width) (hh : 0 < height)
    (hlen : buf.length = width * height * 2) (hbytes : ∀ b ∈ buf, b < 256) :
    ∃ image, load_raw_image buf width height byteorder = Except.ok image ∧
      flattenImage byteorder image = buf := by
  have hsl : (samplesOfBytes byteorder buf).length = width * height := by
    rw [samplesOfBytes_length, hlen]; omega
  have htake : np_fromfile_u16 byteorder buf (width * height) =
      samplesOfBytes byteorder buf := by
    unfold np_fromfile_u16
    exact List.take_of_length_le (le_of_eq hsl)
  refine ⟨np_reshape width height (samplesOfBytes byteorder buf), ?_, ?_⟩
  · unfold load_raw_image
    simp only [htake, hsl, ne_eq, not_true_eq_false, if_false, ite_false]
  · unfold flattenImage
    rw [np_reshape_flatten width height _ hsl]
    exact samplesOfBytes_flatMap byteorder buf (by rw [hlen]; omega) hbytes

/-- C1 witness at `width = height = 1`, buffer `[1, 2]`. -/
theorem c1_witness :
    ∃ image, load_raw_image [1, 2] 1 1 ByteOrder.little = Except.ok image ∧
      flattenImage ByteOrder.little image = [1, 2] :=
  c1_decode_flatten_roundtrip 1 1 ByteOrder.little [1, 2]
    (by decide) (by decide) (by decide) (by decide)

/-- C6: the 2-byte group `[0x01, 0x02]` decodes to sample `0x0201` under
LittleEndian (low-order byte first) and to `0x0102` under BigEndian
(high-order byte first), both as a bare sample and through
`load_raw_image` on a 1×1 image. -/
theorem c6_byteorder_sensitivity :
    sampleOfBytes ByteOrder.little 1 2 = 0x0201 ∧
    sampleOfBytes ByteOrder.big 1 2 = 0x0102 ∧
    load_raw_image [1, 2] 1 1 ByteOrder.little = Except.ok [[0x0201]] ∧
    load_raw_image [1, 2] 1 1 ByteOrder.big = Except.ok [[0x0102]] :=
  ⟨rfl, rfl, rfl, rfl⟩

/-- C7: the reshape step is row-major — sample `i` lands at row
`i / width`, column `i % width` — and on the little-endian encoding of
samples `[10, 20, 30, 40]` with `width = height = 2` the decoded grid is
`[[10, 20], [30, 40]]`. -/
theorem c7_reshape_row_major (width height : Nat) (xs : List Nat) (i : Nat)
    (hw : 0 < width) (hlen : xs.length = width * height) (hi : i < width * height) :
    ((np_reshape width height xs).getD (i / width) []).getD (i % width) 0 =
      xs.getD i 0 ∧
    load_raw_image [10, 0, 20, 0, 30, 0, 40, 0] 2 2 ByteOrder.little =
      Except.ok [[10, 20], [30, 40]] := by
  refine ⟨?_, rfl⟩
  have hrow : i / width < height := Nat.div_lt_of_lt_mul hi
  rw [np_reshape_getD width height xs (i / width) hrow]
  have hmod : i % width < width := Nat.mod_lt i hw
  have hql : i / width * width + i % width = i := by
    rw [Nat.mul_comm]
    exact Nat.div_add_mod i width
  have hlt1 : i % width < ((xs.drop (i / width * width)).take width).length := by
    rw [List.length_take, List.length_drop, hlen]
    omega
  have hlt2 : i < xs.length := by rw [hlen]; exact hi
  rw [List.getD_eq_getElem _ _ hlt1, List.getD_eq_getElem _ _ hlt2,
    List.getElem_take, List.getElem_drop]
  simp only [hql]

/-- C7 witness at `width = height = 2`, `xs = [10, 20, 30, 40]`, `i = 2`. -/
theorem c7_witness :
    ((np_reshape 2 2 [10, 20, 30, 40]).getD (2 / 2) []).getD (2 % 2) 0 =
      [10, 20, 30, 40].getD 2 0 :=
  (c7_reshape_row_major 2 2 [10, 20, 30, 40] 2
    (by decide) (by decide) (by decide)).1

/-! ### Helper lemmas about the batch driver -/

theorem batchAppend_empty_left (b : BatchResult) : batchAppend ⟨[], []⟩ b = b := by
  cases b
  simp [batchAppend]

theorem batchAppend_assoc (a b c : BatchResult) :
    batchAppend (batchAppend a b) c = batchAppend a (batchAppend b c) := by
  cases a
  cases b
  cases c
  simp [batchAppend]

theorem convertStep_eq_append (width height : Nat) (byteorder : ByteOrder)
    (acc : BatchResult) (f : RawFile) :
    convertStep width height byteorder acc f =
      batchAppend acc (convertStep width height byteorder ⟨[], []⟩ f) := by
  unfold convertStep
  cases hc : isRawFilename f.filename with
  | true =>
    simp only [if_true]
    cases hp : process_file f (derive_output_path (input_path_of f)) width height byteorder with
    | ok u => cases acc; simp [hp, batchAppend]
    | error e => cases acc; simp [hp, batchAppend]
  | false => cases acc; simp [batchAppend]

theorem convert_foldl_eq (width height : Nat) (byteorder : ByteOrder) :
    ∀ (files : List RawFile) (acc : BatchResult),
      files.foldl (convertStep width height byteorder) acc =
        batchAppend acc (convert_raw_directory_to_fits files width height byteorder)
  | [], acc => by
    cases acc
    simp [convert_raw_directory_to_fits, batchAppend]
  | f :: rest, acc => by
    simp only [convert_raw_directory_to_fits, List.foldl_cons]
    rw [convert_foldl_eq width height byteorder rest
          (convertStep width height byteorder acc f),
        convert_foldl_eq width height byteorder rest
          (convertStep width height byteorder ⟨[], []⟩ f),
        convertStep_eq_append width height byteorder acc f,
        batchAppend_assoc]

theorem convert_cons (width height : Nat) (byteorder : ByteOrder) (f : RawFile)
    (rest : List RawFile) :
    convert_raw_directory_to_fits (f :: rest) width height byteorder =
      batchAppend (convertStep width height byteorder ⟨[], []⟩ f)
        (convert_raw_directory_to_fits rest width height byteorder) := by
  show List.foldl _ _ (f :: rest) = _
  rw [List.foldl_cons]
  exact convert_foldl_eq width height byteorder rest _

theorem convertStep_candidate (width height : Nat) (byteorder : ByteOrder) (f : RawFile)
    (hc : isRawFilename f.filename = true) :
    convertStep width height byteorder ⟨[], []⟩ f = fileOutcome width height byteorder f := by
  unfold convertStep fileOutcome
  simp only [hc, if_true]
  cases hp : process_file f (derive_output_path (input_path_of f)) width height byteorder <;>
    simp [hp]

theorem convertStep_skip (width height : Nat) (byteorder : ByteOrder) (f : RawFile)
    (hc : isRawFilename f.filename = false) (acc : BatchResult) :
    convertStep width height byteorder acc f = acc := by
  simp [convertStep, hc]

theorem convert_eq_processCandidates (width height : Nat) (byteorder : ByteOrder) :
    ∀ files : List RawFile,
      convert_raw_directory_to_fits files width height byteorder =
        processCandidates width height byteorder
          (files.filter (fun f => isRawFilename f.filename))
  | [] => rfl
  | f :: rest => by
    rw [convert_cons]
    cases hc : isRawFilename f.filename with
    | true =>
      simp only [List.filter_cons, hc, if_true, processCandidates]
      rw [convertStep_candidate width height byteorder f hc,
          convert_eq_processCandidates width height byteorder rest]
    | false =>
      simp only [List.filter_cons, hc]
      rw [convertStep_skip width height byteorder f hc, batchAppend_empty_left,
          convert_eq_processCandidates width height byteorder rest]
      simp

theorem processCandidates_length (width height : Nat) (byteorder : ByteOrder) :
    ∀ cs : List RawFile,
      (processCandidates width height byteorder cs).written.length +
        (processCandidates width height byteorder cs).failed.length = cs.length
  | [] => rfl
  | f :: rest => by
    have hrec := processCandidates_length width height byteorder rest
    simp only [processCandidates, batchAppend, List.length_append, List.length_cons]
    cases hp : process_file f (derive_output_path (input_path_of f)) width height byteorder <;>
      simp only [fileOutcome, hp, List.length_cons, List.length_nil] <;> omega

theorem processCandidates_written (width height : Nat) (byteorder : ByteOrder) :
    ∀ cs : List RawFile,
      (processCandidates width height byteorder cs).written =
        (cs.filter (fileSucceeds width height byteorder)).map
          (fun f => derive_output_path (input_path_of f))
  | [] => rfl
  | f :: rest => by
    have hrec := processCandidates_written width height byteorder rest
    simp only [processCandidates, batchAppend]
    cases hp : process_file f (derive_output_path (input_path_of f)) width height byteorder with
    | ok u =>
      have hs : fileSucceeds width height byteorder f = true := by
        simp [fileSucceeds, hp, Except.isOk, Except.toBool]
      simp [fileOutcome, hp, List.filter_cons, hs, hrec]
    | error e =>
      have hs : fileSucceeds width height byteorder f = false := by
        simp [fileSucceeds, hp, Except.isOk, Except.toBool]
      simp [fileOutcome, hp, List.filter_cons, hs, hrec]

theorem processCandidates_failed (width height : Nat) (byteorder : ByteOrder) :
    ∀ cs : List RawFile,
      (processCandidates width height byteorder cs).failed =
        (cs.filter (fun f => !fileSucceeds width height byteorder f)).map
          (failEntryOf width height byteorder)
  | [] => rfl
  | f :: rest => by
    have hrec := processCandidates_failed width height byteorder rest
    simp only [processCandidates, batchAppend]
    cases hp : process_file f (derive_output_path (input_path_of f)) width height byteorder with
    | ok u =>
      have hs : fileSucceeds width height byteorder f = true := by
        simp [fileSucceeds, hp, Except.isOk, Except.toBool]
      simp [fileOutcome, hp, List.filter_cons, hs, hrec]
    | error e =>
      have hs : fileSucceeds width height byteorder f = false := by
        simp [fileSucceeds, hp, Except.isOk, Except.toBool]
      simp [fileOutcome, failEntryOf, hp, List.filter_cons, hs, hrec]

/-! ### C2, C3, C4, C5, C8, C9, C10 -/

/-- C2: for an accessible file whose byte length `n` differs from
`width*height*2`, the per-file pipeline fails with the size-mismatch
error carrying both counts, and the result does not depend on the file
content or on the writer (no sample data is read); when the length
matches, the size-validation step succeeds. -/
theorem c2_size_validation (f : RawFile) (n width height : Nat) (output_path : Str)
    (byteorder : ByteOrder) (hacc : f.size = some n) :
    (n ≠ width * height * 2 →
      ∀ content writeErr,
        process_file { f with content := content, writeErr := writeErr }
            output_path width height byteorder =
          Except.error (RawError.sizeMismatch (width * height * 2) n width height)) ∧
    (n = width * height * 2 →
      validate_file_size (input_path_of f) f.size width height = Except.ok ()) := by
  constructor
  · intro hne content writeErr
    simp [process_file, validate_file_size, input_path_of, hacc, hne, Bind.bind, Except.bind]
  · intro heq
    simp [validate_file_size, hacc, heq]

/-- C2 witness: a 4-byte file declared as a 1×1 (2-byte) image. -/
theorem c2_witness :
    process_file ⟨str "d", str "a.raw", some 4, [], none⟩ (str "d/a.fits") 1 1
        ByteOrder.little =
      Except.error (RawError.sizeMismatch 2 4 1 1) :=
  (c2_size_validation ⟨str "d", str "a.raw", some 4, [7], some (str "w")⟩ 4 1 1
      (str "d/a.fits") ByteOrder.little rfl).1 (by decide) [] none

/-- C3: with valid geometry, directory mode exits 0 exactly when the
batch produced zero failures (even when zero files were written), and
exits 1 whenever at least one per-file failure occurred. -/
theorem c3_directory_exit_status (args : Args) (files : List RawFile)
    (hw : 0 < args.width) (hh : 0 < args.height) :
    (raw2fits.main args (FsState.dir files) = 0 ↔
      (convert_raw_directory_to_fits files args.width.toNat args.height.toNat
          args.byteorder).failed = []) ∧
    ((convert_raw_directory_to_fits files args.width.toNat args.height.toNat
          args.byteorder).failed ≠ [] →
      raw2fits.main args (FsState.dir files) = 1) := by
  have hguard : ¬(args.width ≤ 0 ∨ args.height ≤ 0) := by omega
  cases hf : (convert_raw_directory_to_fits files args.width.toNat args.height.toNat
      args.byteorder).failed with
  | nil => simp [raw2fits.main, hguard, hf]
  | cons a l => simp [raw2fits.main, hguard, hf]

/-- C3 witness: an empty batch exits 0. -/
theorem c3_witness :
    raw2fits.main ⟨str "d", 1, 1, none, ByteOrder.little⟩ (FsState.dir []) = 0 :=
  (c3_directory_exit_status ⟨str "d", 1, 1, none, ByteOrder.little⟩ []
      (by decide) (by decide)).1.mpr rfl

/-- C4: a candidate file is attempted exactly once: on success its
derived output path is appended to `written`, on failure the string
`"<inputPath>: <error message>"` is appended to `failed`, and in either
case the remaining candidates are still processed. -/
theorem c4_per_file_outcome (f : RawFile) (rest : List RawFile) (width height : Nat)
    (byteorder : ByteOrder) (hc : isRawFilename f.filename = true) :
    (∀ u, process_file f (derive_output_path (input_path_of f)) width height byteorder =
          Except.ok u →
      convert_raw_directory_to_fits (f :: rest) width height byteorder =
        ⟨derive_output_path (input_path_of f) ::
            (convert_raw_directory_to_fits rest width height byteorder).written,
          (convert_raw_directory_to_fits rest width height byteorder).failed⟩) ∧
    (∀ err, process_file f (derive_output_path (input_path_of f)) width height byteorder =
          Except.error err →
      convert_raw_directory_to_fits (f :: rest) width height byteorder =
        ⟨(convert_raw_directory_to_fits rest width height byteorder).written,
          (input_path_of f ++ str ": " ++ errorMessage err) ::
            (convert_raw_directory_to_fits rest width height byteorder).failed⟩) := by
  constructor <;> intro x hp <;>
    rw [convert_cons, convertStep_candidate width height byteorder f hc] <;>
    simp [fileOutcome, hp, batchAppend]

/-- C4 witness: one valid 1×1 candidate is written. -/
theorem c4_witness :
    convert_raw_directory_to_fits [⟨str "d", str "a.raw", some 2, [1, 2], none⟩] 1 1
        ByteOrder.little =
      ⟨[str "d/a.fits"], []⟩ :=
  ((c4_per_file_outcome ⟨str "d", str "a.raw", some 2, [1, 2], none⟩ [] 1 1
      ByteOrder.little (by decide)).1 () rfl).trans rfl

/-- C5: non-positive width or height makes the run exit with status 2 —
distinct from success (0) and from ordinary failure (1) — and the result
is the same for every filesystem state, in both single-file and
directory modes (no filesystem access can influence it). -/
theorem c5_invalid_geometry_rejected (args : Args) (fs : FsState)
    (hbad : args.width ≤ 0 ∨ args.height ≤ 0) :
    raw2fits.main args fs = 2 ∧
    (∀ fs2, raw2fits.main args fs2 = raw2fits.main args fs) ∧
    raw2fits.main args fs ≠ 0 ∧ raw2fits.main args fs ≠ 1 := by
  have h2 : ∀ fs2, raw2fits.main args fs2 = 2 := fun fs2 => by
    simp [raw2fits.main, hbad]
  exact ⟨h2 fs, fun fs2 => by rw [h2 fs2, h2 fs], by rw [h2 fs]; decide,
    by rw [h2 fs]; decide⟩

/-- C5 witness: `width = 0` in directory mode. -/
theorem c5_witness :
    raw2fits.main ⟨str "x", 0, 5, none, ByteOrder.little⟩ (FsState.dir []) = 2 :=
  (c5_invalid_geometry_rejected ⟨str "x", 0, 5, none, ByteOrder.little⟩
      (FsState.dir []) (Or.inl (by decide))).1

/-- C8: the batch attempts exactly the walked files whose names end in
`.raw` case-insensitively, in discovery order (`x.raw` and `x.RAW` are
candidates, `x.rawdata` is not). -/
theorem c8_candidate_selection (files : List RawFile) (width height : Nat)
    (byteorder : ByteOrder) :
    convert_raw_directory_to_fits files width height byteorder =
      processCandidates width height byteorder
        (files.filter (fun f => isRawFilename f.filename)) ∧
    isRawFilename (str "x.raw") = true ∧
    isRawFilename (str "x.RAW") = true ∧
    isRawFilename (str "x.rawdata") = false :=
  ⟨convert_eq_processCandidates width height byteorder files,
    by decide, by decide, by decide⟩

/-- C9: every candidate contributes exactly one entry to exactly one of
the two lists — written plus failed counts equal the candidate count,
each list is the discovery-ordered map of its candidates — and a batch
with no candidates yields two empty lists and exit status 0. -/
theorem c9_batch_result_invariant (files : List RawFile) (width height : Nat)
    (byteorder : ByteOrder) (args : Args) (hw : 0 < args.width) (hh : 0 < args.height) :
    ((convert_raw_directory_to_fits files width height byteorder).written.length +
      (convert_raw_directory_to_fits files width height byteorder).failed.length =
      (files.filter (fun f => isRawFilename f.filename)).length) ∧
    ((convert_raw_directory_to_fits files width height byteorder).written =
      ((files.filter (fun f => isRawFilename f.filename)).filter
          (fileSucceeds width height byteorder)).map
        (fun f => derive_output_path (input_path_of f))) ∧
    ((convert_raw_directory_to_fits files width height byteorder).failed =
      ((files.filter (fun f => isRawFilename f.filename)).filter
          (fun f => !fileSucceeds width height byteorder f)).map
        (failEntryOf width height byteorder)) ∧
    (files.filter (fun f => isRawFilename f.filename) = [] →
      convert_raw_directory_to_fits files width height byteorder = ⟨[], []⟩ ∧
      raw2fits.main args (FsState.dir files) = 0) := by
  have hchar := convert_eq_processCandidates width height byteorder files
  refine ⟨?_, ?_, ?_, ?_⟩
  · rw [hchar]
    exact processCandidates_length width height byteorder _
  · rw [hchar]
    exact processCandidates_written width height byteorder _
  · rw [hchar]
    exact processCandidates_failed width height byteorder _
  · intro hempty
    have hguard : ¬(args.width ≤ 0 ∨ args.height ≤ 0) := by omega
    have h2 := convert_eq_processCandidates args.width.toNat args.height.toNat
      args.byteorder files
    constructor
    · rw [hchar, hempty]
      rfl
    · simp [raw2fits.main, hguard, h2, hempty, processCandidates]

/-- C9 witness: a one-candidate batch has `written` and `failed` counts
summing to 1. -/
theorem c9_witness :
    (convert_raw_directory_to_fits [⟨str "d", str "a.raw", some 2, [1, 2], none⟩] 1 1
        ByteOrder.little).written.length +
      (convert_raw_directory_to_fits [⟨str "d", str "a.raw", some 2, [1, 2], none⟩] 1 1
        ByteOrder.little).failed.length =
      ([(⟨str "d", str "a.raw", some 2, [1, 2], none⟩ : RawFile)].filter
          (fun f => isRawFilename f.filename)).length :=
  (c9_batch_result_invariant [⟨str "d", str "a.raw", some 2, [1, 2], none⟩] 1 1
      ByteOrder.little ⟨str "d", 1, 1, none, ByteOrder.little⟩
      (by decide) (by decide)).1

/-- C10: when the input path contains no dot, `.fits` is appended; a
dotfile candidate `.raw` (which still matches the candidate filter)
derives `.raw.fits` rather than `.fits`; a name with a recognizable
extension has it substituted (`x.raw` → `x.fits`, and a dot only in a
directory component does not count: `a.b/c` → `a.b/c.fits`). -/
theorem c10_output_path_derivation (p : Str) (hnod : rfindIdx '.' p = none) :
    derive_output_path p = p ++ str ".fits" ∧
    derive_output_path (str ".raw") = str ".raw.fits" ∧
    isRawFilename (str ".raw") = true ∧
    derive_output_path (str "x.raw") = str "x.fits" ∧
    derive_output_path (str "a.b/c") = str "a.b/c.fits" := by
  refine ⟨?_, by decide, by decide, by decide, by decide⟩
  unfold derive_output_path os_path_splitext
  rw [hnod]
  cases hs : rfindIdx '/' p with
  | none => simp
  | some i =>
    have hni : ¬((i : Int) < -1) := by omega
    simp [hni]

/-- C10 witness: an extensionless name gets `.fits` appended. -/
theorem c10_witness :
    derive_output_path (str "noext") = str "noext" ++ str ".fits" :=
  (c10_output_path_derivation (str "noext") (by decide)).1


